import Mathlib

/-!
Verification of the command-execution engine of the `lsh` shell
(`src/code/lsh.c`) against its natural-language specification.

The engine is embedded shallowly:

* the parsed `Command`/`Pgm` structures mirror `parse.h`'s linked data
  (the `Pgm` chain is stored in *reverse* pipeline order, head = last stage,
  exactly as the parser builds it);
* the parent side of `execute_cmd`/`execute_pipeline` is embedded as a pure
  function producing the ordered list of observable events (pipe creations,
  forks, fd closes, waits), parameterised by oracles for the outcomes of the
  fallible primitives `pipe`, `fork` and `chdir`;
* the child side (the body of the `pid == 0` branch in `execute_pipeline`,
  lines 205-256) is embedded as a pure function producing the ordered list
  of actions the child performs before `execvp`, parameterised by oracles
  for the outcomes of `open` on the redirection targets; a failed `open`
  truncates the action list at the child's `exit(1)`, as in the source;
* `wait(NULL)` semantics are modelled by a queue of terminated child pids in
  termination order, each call consuming the front of the queue.
-/

namespace Lsh

/-- One pipeline stage: the program name followed by its arguments
(`Pgm.pgmlist` in `parse.h`). -/
structure Pgm where
  pgmlist : List String
deriving DecidableEq, Repr

/-- A parsed command line (`Command` in `parse.h`). `pgms` is the `Pgm`
chain in the order the parser links it: head = last pipeline stage. -/
structure Command where
  pgms : List Pgm
  rstdin : Option String
  rstdout : Option String
  background : Bool
deriving DecidableEq, Repr

/-- The two standard streams a child rebinds. -/
inductive StdStream where
  | stdin
  | stdout
deriving DecidableEq, Repr

/-- A descriptor as the child code refers to it: either an entry of the
`pipefds` array (by array index `i`; entry `2k` is the read end and `2k+1`
the write end of pipe `k`) or a freshly opened redirection file. -/
inductive Fd where
  | pipeFd (i : Nat)
  | file (path : String)
deriving DecidableEq, Repr

/-- An observable action of a child process between `fork` and `execvp`
(source lines 205-256). -/
inductive CAct where
  | sigDfl                                   -- signal(SIGINT, SIG_DFL), line 210
  | openRead (path : String)                 -- open(rstdin, O_RDONLY), line 215
  | openWrite (path : String)                -- open(rstdout, O_WRONLY|O_CREAT|O_TRUNC), line 233
  | dup2 (src : Fd) (dst : StdStream)        -- dup2(fd, STDIN/STDOUT_FILENO)
  | closeFd (f : Fd)                         -- close(fd)
  | exitChild (code : Nat)                   -- exit(1) after a failed open
  | execvp (argv : List String)              -- execvp(p->pgmlist[0], p->pgmlist), line 254
deriving DecidableEq, Repr

/-- The stdin phase of the child (source lines 212-228), returning the
actions performed and whether the child exited (failed `open`).
`openR path = true` means `open(path, O_RDONLY)` succeeds. -/
def stdinActs (rin : Option String) (cmdIdx numCmds : Nat) (openR : String → Bool) :
    List CAct × Bool :=
  match rin with
  | some f =>
    if cmdIdx = numCmds - 1 then
      if openR f then
        ([CAct.openRead f, CAct.dup2 (Fd.file f) StdStream.stdin,
          CAct.closeFd (Fd.file f)], false)
      else
        ([CAct.openRead f, CAct.exitChild 1], true)
    else if cmdIdx < numCmds - 1 then
      ([CAct.dup2 (Fd.pipeFd (2 * cmdIdx)) StdStream.stdin], false)
    else ([], false)
  | none =>
    if cmdIdx < numCmds - 1 then
      ([CAct.dup2 (Fd.pipeFd (2 * cmdIdx)) StdStream.stdin], false)
    else ([], false)

/-- The stdout phase of the child (source lines 230-246).
`openW path = true` means `open(path, O_WRONLY|O_CREAT|O_TRUNC)` succeeds. -/
def stdoutActs (rout : Option String) (cmdIdx : Nat) (openW : String → Bool) :
    List CAct × Bool :=
  match rout with
  | some f =>
    if cmdIdx = 0 then
      if openW f then
        ([CAct.openWrite f, CAct.dup2 (Fd.file f) StdStream.stdout,
          CAct.closeFd (Fd.file f)], false)
      else
        ([CAct.openWrite f, CAct.exitChild 1], true)
    else
      ([CAct.dup2 (Fd.pipeFd (2 * (cmdIdx - 1) + 1)) StdStream.stdout], false)
  | none =>
    if cmdIdx > 0 then
      ([CAct.dup2 (Fd.pipeFd (2 * (cmdIdx - 1) + 1)) StdStream.stdout], false)
    else ([], false)

/-- The full action sequence of the child forked for the stage at reversed
index `cmdIdx` (head of the `Pgm` chain = index 0 = last pipeline stage),
source lines 205-256: conditional SIGINT reset, stdin binding, stdout
binding, closing every `pipefds` entry, then `execvp`.  A failed `open`
truncates the sequence at the child's `exit(1)`. -/
def childActions (bg : Bool) (rin rout : Option String) (cmdIdx numCmds : Nat)
    (argv : List String) (openR openW : String → Bool) : List CAct :=
  let sig := if bg then [] else [CAct.sigDfl]
  let ins := stdinActs rin cmdIdx numCmds openR
  if ins.2 then sig ++ ins.1
  else
    let outs := stdoutActs rout cmdIdx openW
    if outs.2 then sig ++ ins.1 ++ outs.1
    else
      sig ++ ins.1 ++ outs.1
        ++ (List.range (2 * (numCmds - 1))).map (fun i => CAct.closeFd (Fd.pipeFd i))
        ++ [CAct.execvp argv]

example :
    childActions false (some "in") none 1 2 ["cat"] (fun _ => true) (fun _ => true)
      = [CAct.sigDfl, CAct.openRead "in", CAct.dup2 (Fd.file "in") StdStream.stdin,
         CAct.closeFd (Fd.file "in"),
         CAct.dup2 (Fd.pipeFd 1) StdStream.stdout,
         CAct.closeFd (Fd.pipeFd 0), CAct.closeFd (Fd.pipeFd 1),
         CAct.execvp ["cat"]] := by decide

example :
    childActions false (some "in") none 1 2 ["cat"] (fun _ => false) (fun _ => true)
      = [CAct.sigDfl, CAct.openRead "in", CAct.exitChild 1] := by decide

/-- An observable event of the parent (shell) process while executing a
pipeline (`execute_cmd` lines 149-184 and the parent side of
`execute_pipeline`). -/
inductive PEvent where
  | createPipe (k : Nat)        -- pipe(pipefds + 2*k), line 162
  | exitShell (code : Nat)      -- exit(1) on pipe failure, line 165
  | fork (cmdIdx : Nat)         -- successful fork for reversed index cmdIdx, line 197
  | forkFailLog (cmdIdx : Nat)  -- perror("Fork failed"), line 201
  | closeParent (i : Nat)       -- close(pipefds[i]) in the parent, line 174
  | waitAny                     -- wait(NULL), line 181
deriving DecidableEq, Repr

/-- The pipe-creation loop of `execute_cmd` (lines 159-167), with `m` pipes
still to create starting at index `i`: on the first failing `pipe` call the
shell logs and calls `exit(1)` (second component `true` = shell exited). -/
def createPipesAux (pipeOk : Nat → Bool) (i : Nat) : Nat → List PEvent × Bool
  | 0 => ([], false)
  | m + 1 =>
    if pipeOk i then
      let rest := createPipesAux pipeOk (i + 1) m
      (PEvent.createPipe i :: rest.1, rest.2)
    else ([PEvent.exitShell 1], true)

/-- The pipe-creation loop of `execute_cmd` for indices `0 ≤ k < n`. -/
def createPipes (pipeOk : Nat → Bool) (n : Nat) : List PEvent × Bool :=
  createPipesAux pipeOk 0 n

/-- Parent-side events of the recursive `execute_pipeline` (lines 188-261):
recurse to the tail of the (reversed) `Pgm` chain first, then fork; a failed
fork is logged but the recursive caller discards the `-1` return value, so
the remaining frames still fork. `forkOk idx = true` means the `fork` for
reversed index `idx` succeeds. -/
def execute_pipeline (ps : List Pgm) (cmdIdx : Nat) (forkOk : Nat → Bool) :
    List PEvent :=
  match ps with
  | [] => []
  | _ :: rest =>
    execute_pipeline rest (cmdIdx + 1) forkOk
      ++ (if forkOk cmdIdx then [PEvent.fork cmdIdx] else [PEvent.forkFailLog cmdIdx])

/-- The non-built-in branch of `execute_cmd` (lines 151-183): create the
`N-1` pipes, run `execute_pipeline`, close all pipe fds in the parent and,
for a foreground command, call `wait(NULL)` exactly `N` times. -/
def runPipeline (pgms : List Pgm) (bg : Bool) (pipeOk forkOk : Nat → Bool) :
    List PEvent :=
  let numCmds := pgms.length
  let pipes := createPipes pipeOk (numCmds - 1)
  if pipes.2 then pipes.1
  else
    pipes.1 ++ execute_pipeline pgms 0 forkOk
      ++ (List.range (2 * (numCmds - 1))).map PEvent.closeParent
      ++ (if bg then [] else List.replicate numCmds PEvent.waitAny)

/-- An observable action of the built-in handler `check_built_ins`
(lines 97-133). -/
inductive BAct where
  | usageErrCd              -- fprintf(stderr, "cd: too many arguments"), line 105
  | missingArgCd            -- fprintf(stderr, "cd : missing argument"), line 111
  | chdirTo (path : String) -- successful chdir(path), line 113
  | chdirFailLog            -- perror("cd"), line 115
  | usageErrExit            -- fprintf(stderr, "exit: too many arguments"), line 125
  | shellExit (code : Nat)  -- exit(0), line 130
deriving DecidableEq, Repr

/-- `check_built_ins` (lines 97-133): returns the C function's return value
(`-1` usage error, `0` built-in handled, `1` not a built-in) together with
the actions performed. `chdirOk path = true` means `chdir(path)` succeeds. -/
def check_built_ins (argv : List String) (chdirOk : String → Bool) :
    Int × List BAct :=
  match argv with
  | [] => (1, [])
  | name :: args =>
    if name = "cd" then
      if args.length + 1 > 2 then (-1, [BAct.usageErrCd])
      else
        match args with
        | [] => (0, [BAct.missingArgCd])
        | a :: _ => if chdirOk a then (0, [BAct.chdirTo a]) else (0, [BAct.chdirFailLog])
    else if name = "exit" then
      if args.length + 1 > 1 then (-1, [BAct.usageErrExit])
      else (0, [BAct.shellExit 0])
    else (1, [])

/-- `execute_cmd` (lines 135-185): run `check_built_ins` on the first
`Pgm` of the chain; if its return value is nonzero (`!= 0`, line 149) —
which is the case both for "not a built-in" (`1`) and for "built-in usage
error" (`-1`) — run the pipeline. Returns the built-in actions and the
parent events. -/
def execute_cmd (cmd : Command) (chdirOk : String → Bool)
    (pipeOk forkOk : Nat → Bool) : List BAct × List PEvent :=
  match cmd.pgms with
  | [] => ([], [])
  | p0 :: _ =>
    let r := check_built_ins p0.pgmlist chdirOk
    if r.1 ≠ 0 then (r.2, runPipeline cmd.pgms cmd.background pipeOk forkOk)
    else (r.2, [])

/-- Model of the foreground wait loop's interaction with the OS
(lines 177-182): the OS presents terminated children as a queue of pids in
termination order, and each `wait(NULL)` — which carries no pid filter —
consumes the front of the queue; `n` blind waits therefore consume the
first `n` terminated children, whoever they belong to. -/
def blindReap (n : Nat) (zombies : List Nat) : List Nat :=
  zombies.take n

example :
    runPipeline [⟨["wc"]⟩, ⟨["cat"]⟩] false (fun _ => true) (fun _ => true)
      = [PEvent.createPipe 0, PEvent.fork 1, PEvent.fork 0,
         PEvent.closeParent 0, PEvent.closeParent 1,
         PEvent.waitAny, PEvent.waitAny] := by decide

example :
    (execute_cmd ⟨[⟨["exit", "foo"]⟩], none, none, false⟩
        (fun _ => true) (fun _ => true) (fun _ => true))
      = ([BAct.usageErrExit], [PEvent.fork 0, PEvent.waitAny]) := by decide

/-! ### Descriptor bindings

The effective stdin/stdout binding of a child is the source of the *last*
`dup2` it performs onto that stream before `execvp` (a later `dup2`
overwrites an earlier one). -/

/-- What a standard stream of a child ends up connected to. Pipe ends are
numbered as the source numbers them: `pipefds[2k]`/`pipefds[2k+1]` are the
read/write ends of pipe `k` (pipe `k` is read by reversed index `k` and
written by reversed index `k+1`). -/
inductive Binding where
  | inherited
  | fromFile (path : String)
  | pipeRead (k : Nat)
  | pipeWrite (k : Nat)
deriving DecidableEq, Repr

/-- The binding denoted by duplicating descriptor `f` onto a standard
stream. -/
def fdBinding : Fd → Binding
  | Fd.file f => Binding.fromFile f
  | Fd.pipeFd i => if i % 2 = 0 then Binding.pipeRead (i / 2) else Binding.pipeWrite (i / 2)

/-- One step of scanning the child's actions for `dup2`s onto `dst`. -/
def stepDup (dst : StdStream) (b : Binding) (a : CAct) : Binding :=
  match a with
  | CAct.dup2 src d => if d = dst then fdBinding src else b
  | _ => b

/-- The binding left on stream `dst` after the actions `l`, starting from
`b`. -/
def lastDupFrom (dst : StdStream) (b : Binding) (l : List CAct) : Binding :=
  l.foldl (stepDup dst) b

/-- The effective binding of stream `dst` after the child's actions `l`
(inherited if no `dup2` targets it). -/
def lastDup (l : List CAct) (dst : StdStream) : Binding :=
  lastDupFrom dst Binding.inherited l

/-! ### The specification's binding plan (section 4.1)

Modelled from the spec: stage numbering is the spec's (stage `0` = first,
`N-1` = last) and pipe numbering is the spec's (pipe `k` connects stage
`k`'s output to stage `k+1`'s input). -/

/-- Modelled from the spec, section 4.1: stage `s`'s stdin binds to the
input-redirection file if `s = 0` and it is present, to the inherited stdin
if `s = 0` and it is absent, and to the read end of pipe `s-1` otherwise. -/
def specStdinPlan (s : Nat) (rin : Option String) : Binding :=
  if s = 0 then
    match rin with
    | some f => Binding.fromFile f
    | none => Binding.inherited
  else Binding.pipeRead (s - 1)

/-- Modelled from the spec, section 4.1: stage `s`'s stdout binds to the
output-redirection file if `s = N-1` and it is present, to the inherited
stdout if `s = N-1` and it is absent, and to the write end of pipe `s`
otherwise. -/
def specStdoutPlan (numStages s : Nat) (rout : Option String) : Binding :=
  if s = numStages - 1 then
    match rout with
    | some f => Binding.fromFile f
    | none => Binding.inherited
  else Binding.pipeWrite s

/-- Renumbering from the spec's pipe indices to the source's: the source
indexes pipes from the tail of the reversed `Pgm` chain, so spec pipe `k`
(between spec stages `k` and `k+1`) is the source's pipe `N-2-k`. -/
def specToCode (numStages : Nat) : Binding → Binding
  | Binding.pipeRead k => Binding.pipeRead (numStages - 2 - k)
  | Binding.pipeWrite k => Binding.pipeWrite (numStages - 2 - k)
  | b => b

/-! ### Event and action classifiers -/

def isCreate : PEvent → Bool
  | PEvent.createPipe _ => true
  | _ => false

def isFork : PEvent → Bool
  | PEvent.fork _ => true
  | _ => false

def isForkFail : PEvent → Bool
  | PEvent.forkFailLog _ => true
  | _ => false

def isCloseParent : PEvent → Bool
  | PEvent.closeParent _ => true
  | _ => false

def isWait : PEvent → Bool
  | PEvent.waitAny => true
  | _ => false

def isShellExit : PEvent → Bool
  | PEvent.exitShell _ => true
  | _ => false

/-- The reversed stage index of a successful fork event. -/
def forkIdx : PEvent → Option Nat
  | PEvent.fork i => some i
  | _ => none

def isCloseAct : CAct → Bool
  | CAct.closeFd _ => true
  | _ => false

def isSigAct : CAct → Bool
  | CAct.sigDfl => true
  | _ => false

def isExecAct : CAct → Bool
  | CAct.execvp _ => true
  | _ => false

def mentionsChdir (l : List BAct) : Bool :=
  l.any (fun a => match a with | BAct.chdirTo _ => true | _ => false)

/-! ### SIGINT dispositions -/

/-- SIGINT disposition of a process: default (`SIG_DFL`, the signal
terminates the process) or ignore (`SIG_IGN`). -/
inductive Disposition where
  | dfl
  | ign
deriving DecidableEq, Repr

/-- The shell's own SIGINT disposition: `signal(SIGINT, SIG_IGN)` at the
top of `main` (line 54), never changed again in the parent process, so it
is in force both while reading input and while waiting on a foreground
pipeline. -/
def shellSigint : Disposition := Disposition.ign

/-- A child's SIGINT disposition at `execvp` time: the child inherits the
shell's disposition across `fork`, and resets it to default iff the
pipeline is foreground (lines 207-210). -/
def childSigint (bg : Bool) : Disposition :=
  if bg then shellSigint else Disposition.dfl

/-- SIGINT terminates a process exactly when its disposition is the
default one. -/
def killedBySigint : Disposition → Bool
  | Disposition.dfl => true
  | Disposition.ign => false

/-- Every `p`-element of `l` occurs strictly before every `q`-element. -/
def allBefore {α : Type} (p q : α → Bool) (l : List α) : Prop :=
  ∀ i j : Fin l.length, p (l.get i) = true → q (l.get j) = true → (i : Nat) < (j : Nat)

theorem allBefore_append {α : Type} (p q : α → Bool) (l1 l2 : List α)
    (h1 : ∀ e ∈ l1, q e = false) (h2 : ∀ e ∈ l2, p e = false) :
    allBefore p q (l1 ++ l2) := by
  intro i j hp hq
  have hilen : (i : Nat) < l1.length := by
    by_contra hle
    have hj2 : (l1 ++ l2).get i ∈ l2 := by
      rw [List.get_eq_getElem,
        List.getElem_append_right (Nat.le_of_not_lt hle)]
      exact List.getElem_mem _
    rw [h2 _ hj2] at hp
    exact Bool.false_ne_true hp
  have hjlen : l1.length ≤ (j : Nat) := by
    by_contra hlt
    have hj1 : (l1 ++ l2).get j ∈ l1 := by
      rw [List.get_eq_getElem,
        List.getElem_append_left (Nat.lt_of_not_le hlt)]
      exact List.getElem_mem _
    rw [h1 _ hj1] at hq
    exact Bool.false_ne_true hq
  omega

/-! ### Helper lemmas -/

theorem stdinActs_snd_true (rin : Option String) (i n : Nat) :
    (stdinActs rin i n (fun _ => true)).2 = false := by
  cases rin <;> simp only [stdinActs] <;> split_ifs <;> rfl

theorem stdoutActs_snd_true (rout : Option String) (i : Nat) :
    (stdoutActs rout i (fun _ => true)).2 = false := by
  cases rout <;> simp only [stdoutActs] <;> split_ifs <;> rfl

theorem childActions_true (bg : Bool) (rin rout : Option String) (i n : Nat)
    (argv : List String) :
    childActions bg rin rout i n argv (fun _ => true) (fun _ => true)
      = (if bg then [] else [CAct.sigDfl])
        ++ ((stdinActs rin i n (fun _ => true)).1
          ++ ((stdoutActs rout i (fun _ => true)).1
            ++ ((List.range (2 * (n - 1))).map (fun k => CAct.closeFd (Fd.pipeFd k))
              ++ [CAct.execvp argv]))) := by
  simp only [childActions, stdinActs_snd_true, stdoutActs_snd_true,
    Bool.false_eq_true, if_false, List.append_assoc]

theorem mem_stdinActs (rin : Option String) (i n : Nat) (oR : String → Bool) :
    ∀ a ∈ (stdinActs rin i n oR).1,
      (∃ f, a = CAct.openRead f) ∨ (∃ s, a = CAct.dup2 s StdStream.stdin)
        ∨ (∃ f, a = CAct.closeFd f) ∨ a = CAct.exitChild 1 := by
  intro a ha
  cases rin <;> simp only [stdinActs] at ha <;> split_ifs at ha <;> simp_all <;> aesop

theorem mem_stdoutActs (rout : Option String) (i : Nat) (oW : String → Bool) :
    ∀ a ∈ (stdoutActs rout i oW).1,
      (∃ f, a = CAct.openWrite f) ∨ (∃ s, a = CAct.dup2 s StdStream.stdout)
        ∨ (∃ f, a = CAct.closeFd f) ∨ a = CAct.exitChild 1 := by
  intro a ha
  cases rout <;> simp only [stdoutActs] at ha <;> split_ifs at ha <;> simp_all <;> aesop

theorem stdinActs_no_exec (rin : Option String) (i n : Nat) (oR : String → Bool) :
    ∀ a ∈ (stdinActs rin i n oR).1, isExecAct a = false := by
  intro a ha
  rcases mem_stdinActs rin i n oR a ha with ⟨f, rfl⟩ | ⟨s, rfl⟩ | ⟨f, rfl⟩ | rfl <;> rfl

theorem stdoutActs_no_exec (rout : Option String) (i : Nat) (oW : String → Bool) :
    ∀ a ∈ (stdoutActs rout i oW).1, isExecAct a = false := by
  intro a ha
  rcases mem_stdoutActs rout i oW a ha with ⟨f, rfl⟩ | ⟨s, rfl⟩ | ⟨f, rfl⟩ | rfl <;> rfl

theorem stdinActs_no_sig (rin : Option String) (i n : Nat) (oR : String → Bool) :
    ∀ a ∈ (stdinActs rin i n oR).1, isSigAct a = false := by
  intro a ha
  rcases mem_stdinActs rin i n oR a ha with ⟨f, rfl⟩ | ⟨s, rfl⟩ | ⟨f, rfl⟩ | rfl <;> rfl

theorem stdoutActs_no_sig (rout : Option String) (i : Nat) (oW : String → Bool) :
    ∀ a ∈ (stdoutActs rout i oW).1, isSigAct a = false := by
  intro a ha
  rcases mem_stdoutActs rout i oW a ha with ⟨f, rfl⟩ | ⟨s, rfl⟩ | ⟨f, rfl⟩ | rfl <;> rfl

theorem stdinActs_stdout_neutral (rin : Option String) (i n : Nat) (oR : String → Bool) :
    ∀ a ∈ (stdinActs rin i n oR).1, ∀ b, stepDup StdStream.stdout b a = b := by
  intro a ha b
  rcases mem_stdinActs rin i n oR a ha with ⟨f, rfl⟩ | ⟨s, rfl⟩ | ⟨f, rfl⟩ | rfl <;> rfl

theorem stdoutActs_stdin_neutral (rout : Option String) (i : Nat) (oW : String → Bool) :
    ∀ a ∈ (stdoutActs rout i oW).1, ∀ b, stepDup StdStream.stdin b a = b := by
  intro a ha b
  rcases mem_stdoutActs rout i oW a ha with ⟨f, rfl⟩ | ⟨s, rfl⟩ | ⟨f, rfl⟩ | rfl <;> rfl

theorem lastDupFrom_append (dst : StdStream) (b : Binding) (l1 l2 : List CAct) :
    lastDupFrom dst b (l1 ++ l2) = lastDupFrom dst (lastDupFrom dst b l1) l2 :=
  List.foldl_append _ _ _ _

theorem lastDupFrom_fixed (dst : StdStream) (b : Binding) (l : List CAct)
    (h : ∀ a ∈ l, ∀ c, stepDup dst c a = c) : lastDupFrom dst b l = b := by
  induction l generalizing b with
  | nil => rfl
  | cons a rest ih =>
    have hstep : stepDup dst b a = b := h a (by simp) b
    simp only [lastDupFrom, List.foldl_cons, hstep]
    exact ih b (fun x hx c => h x (by simp [hx]) c)

theorem lastDup_childActions_stdin (bg : Bool) (rin rout : Option String) (i n : Nat)
    (argv : List String) :
    lastDup (childActions bg rin rout i n argv (fun _ => true) (fun _ => true))
        StdStream.stdin
      = lastDupFrom StdStream.stdin Binding.inherited
          (stdinActs rin i n (fun _ => true)).1 := by
  rw [lastDup, childActions_true]
  rw [lastDupFrom_append, lastDupFrom_append, lastDupFrom_append, lastDupFrom_append]
  rw [lastDupFrom_fixed _ _ (if bg then [] else [CAct.sigDfl])
    (by intro a ha c; split_ifs at ha <;> simp_all <;> rfl)]
  rw [lastDupFrom_fixed _ _ (stdoutActs rout i (fun _ => true)).1
    (stdoutActs_stdin_neutral rout i (fun _ => true))]
  rw [lastDupFrom_fixed _ _ ((List.range (2 * (n - 1))).map
      (fun k => CAct.closeFd (Fd.pipeFd k)))
    (by intro a ha c; rcases List.mem_map.1 ha with ⟨k, _, rfl⟩; rfl)]
  rw [lastDupFrom_fixed _ _ [CAct.execvp argv] (by intro a ha c; simp_all; rfl)]

theorem lastDup_childActions_stdout (bg : Bool) (rin rout : Option String) (i n : Nat)
    (argv : List String) :
    lastDup (childActions bg rin rout i n argv (fun _ => true) (fun _ => true))
        StdStream.stdout
      = lastDupFrom StdStream.stdout Binding.inherited
          (stdoutActs rout i (fun _ => true)).1 := by
  rw [lastDup, childActions_true]
  rw [lastDupFrom_append, lastDupFrom_append, lastDupFrom_append, lastDupFrom_append]
  rw [lastDupFrom_fixed _ _ (if bg then [] else [CAct.sigDfl])
    (by intro a ha c; split_ifs at ha <;> simp_all <;> rfl)]
  rw [lastDupFrom_fixed _ _ (stdinActs rin i n (fun _ => true)).1
    (stdinActs_stdout_neutral rin i n (fun _ => true))]
  rw [lastDupFrom_fixed _ _ ((List.range (2 * (n - 1))).map
      (fun k => CAct.closeFd (Fd.pipeFd k)))
    (by intro a ha c; rcases List.mem_map.1 ha with ⟨k, _, rfl⟩; rfl)]
  rw [lastDupFrom_fixed _ _ [CAct.execvp argv] (by intro a ha c; simp_all; rfl)]

theorem fdBinding_read (k : Nat) :
    fdBinding (Fd.pipeFd (2 * k)) = Binding.pipeRead k := by
  have h1 : 2 * k % 2 = 0 := by omega
  have h2 : 2 * k / 2 = k := by omega
  simp [fdBinding, h1, h2]

theorem fdBinding_write (k : Nat) :
    fdBinding (Fd.pipeFd (2 * k + 1)) = Binding.pipeWrite k := by
  have h1 : (2 * k + 1) % 2 = 1 := by omega
  have h2 : (2 * k + 1) / 2 = k := by omega
  simp [fdBinding, h1, h2]

theorem createPipesAux_true (m : Nat) : ∀ i : Nat,
    createPipesAux (fun _ => true) i m
      = ((List.range' i m).map PEvent.createPipe, false) := by
  induction m with
  | zero => intro i; rfl
  | succ m ih =>
    intro i
    simp [createPipesAux, ih (i + 1), List.range'_succ]

theorem runPipeline_true (pgms : List Pgm) (bg : Bool) (forkOk : Nat → Bool) :
    runPipeline pgms bg (fun _ => true) forkOk
      = (List.range (pgms.length - 1)).map PEvent.createPipe
        ++ (execute_pipeline pgms 0 forkOk
          ++ ((List.range (2 * (pgms.length - 1))).map PEvent.closeParent
            ++ (if bg then [] else List.replicate pgms.length PEvent.waitAny))) := by
  simp [runPipeline, createPipes, createPipesAux_true, List.range_eq_range']

theorem mem_execute_pipeline (ps : List Pgm) (forkOk : Nat → Bool) :
    ∀ i : Nat, ∀ e ∈ execute_pipeline ps i forkOk,
      (∃ k, e = PEvent.fork k) ∨ ∃ k, e = PEvent.forkFailLog k := by
  induction ps with
  | nil => intro i e he; simp [execute_pipeline] at he
  | cons p rest ih =>
    intro i e he
    simp only [execute_pipeline, List.mem_append] at he
    rcases he with he | he
    · exact ih (i + 1) e he
    · split_ifs at he <;> simp_all

theorem filterMap_forkIdx_execute_pipeline (ps : List Pgm) :
    ∀ i : Nat,
      (execute_pipeline ps i (fun _ => true)).filterMap forkIdx
        = (List.range' i ps.length).reverse := by
  induction ps with
  | nil => intro i; rfl
  | cons p rest ih =>
    intro i
    simp [execute_pipeline, List.filterMap_append, ih (i + 1), List.range'_succ,
      forkIdx]

theorem fork_mem_execute_pipeline (ps : List Pgm) : ∀ i j : Nat, ∀ forkOk : Nat → Bool,
    j < ps.length →
      (forkOk (i + j) = true → PEvent.fork (i + j) ∈ execute_pipeline ps i forkOk)
      ∧ (forkOk (i + j) = false →
          PEvent.forkFailLog (i + j) ∈ execute_pipeline ps i forkOk) := by
  induction ps with
  | nil => intro i j forkOk hj; simp at hj
  | cons p rest ih =>
    intro i j forkOk hj
    cases j with
    | zero =>
      constructor <;> intro h <;>
        exact List.mem_append.2 (Or.inr (by simp_all))
    | succ j =>
      have hj2 : j < rest.length := by simpa using Nat.lt_of_succ_lt_succ hj
      have hx : i + (j + 1) = (i + 1) + j := by omega
      rw [hx]
      have := ih (i + 1) j forkOk hj2
      constructor <;> intro h <;> simp only [execute_pipeline, List.mem_append] <;>
        exact Or.inl (by first | exact this.1 h | exact this.2 h)

theorem runPipeline_no_shellExit (pgms : List Pgm) (bg : Bool) (forkOk : Nat → Bool) :
    ∀ e ∈ runPipeline pgms bg (fun _ => true) forkOk, isShellExit e = false := by
  rw [runPipeline_true]
  intro e he
  rcases List.mem_append.1 he with h | h
  · rcases List.mem_map.1 h with ⟨k, _, rfl⟩; rfl
  · rcases List.mem_append.1 h with h | h
    · rcases mem_execute_pipeline pgms forkOk 0 e h with ⟨k, rfl⟩ | ⟨k, rfl⟩ <;> rfl
    · rcases List.mem_append.1 h with h | h
      · rcases List.mem_map.1 h with ⟨k, _, rfl⟩; rfl
      · split_ifs at h
        · simp at h
        · rw [List.eq_of_mem_replicate h]; rfl

theorem creates_before_forks (pgms : List Pgm) (bg : Bool) (forkOk : Nat → Bool) :
    allBefore isCreate isFork (runPipeline pgms bg (fun _ => true) forkOk) := by
  rw [runPipeline_true]
  apply allBefore_append
  · intro e he
    rcases List.mem_map.1 he with ⟨k, _, rfl⟩; rfl
  · intro e he
    rcases List.mem_append.1 he with h | h
    · rcases mem_execute_pipeline pgms forkOk 0 e h with ⟨k, rfl⟩ | ⟨k, rfl⟩ <;> rfl
    · rcases List.mem_append.1 h with h | h
      · rcases List.mem_map.1 h with ⟨k, _, rfl⟩; rfl
      · split_ifs at h
        · simp at h
        · rw [List.eq_of_mem_replicate h]; rfl

theorem forks_before_parent_closes (pgms : List Pgm) (bg : Bool) (forkOk : Nat → Bool) :
    allBefore isFork isCloseParent (runPipeline pgms bg (fun _ => true) forkOk) := by
  rw [runPipeline_true, ← List.append_assoc]
  apply allBefore_append
  · intro e he
    rcases List.mem_append.1 he with h | h
    · rcases List.mem_map.1 h with ⟨k, _, rfl⟩; rfl
    · rcases mem_execute_pipeline pgms forkOk 0 e h with ⟨k, rfl⟩ | ⟨k, rfl⟩ <;> rfl
  · intro e he
    rcases List.mem_append.1 he with h | h
    · rcases List.mem_map.1 h with ⟨k, _, rfl⟩; rfl
    · split_ifs at h
      · simp at h
      · rw [List.eq_of_mem_replicate h]; rfl

/-! ### The claims -/

/-- Claim C1: for every pipeline of `N` stages (spec stage `s`, with `0` the
first and `N-1` the last, is the child at reversed index `N-1-s` of the
`Pgm` chain), the descriptor bindings each child applies before `exec`
(all redirection opens succeeding) follow the plan of spec section 4.1:
stage 0's stdin is the input-redirection file when present, else the
inherited stdin; stage `N-1`'s stdout is the output-redirection file when
present, else the inherited stdout; every interior stage's stdin/stdout are
the read/write ends of its upstream/downstream pipes (so redirections are
never applied to interior stages); and a single-stage pipeline honors both
redirections with no pipes created. -/
theorem claim_c1 (numStages s : Nat) (bg : Bool) (rin rout : Option String)
    (argv : List String) (hs : s < numStages) :
    (lastDup (childActions bg rin rout (numStages - 1 - s) numStages argv
        (fun _ => true) (fun _ => true)) StdStream.stdin
      = specToCode numStages (specStdinPlan s rin))
    ∧ (lastDup (childActions bg rin rout (numStages - 1 - s) numStages argv
        (fun _ => true) (fun _ => true)) StdStream.stdout
      = specToCode numStages (specStdoutPlan numStages s rout))
    ∧ (∀ pipeOk : Nat → Bool, createPipes pipeOk (1 - 1) = ([], false)) := by
  refine ⟨?_, ?_, fun _ => rfl⟩
  · rw [lastDup_childActions_stdin]
    by_cases h0 : s = 0
    · subst h0
      rcases rin with _ | f
      · simp [stdinActs, specStdinPlan, specToCode, lastDupFrom]
      · simp [stdinActs, specStdinPlan, specToCode, lastDupFrom, stepDup, fdBinding]
    · have hne : ¬(numStages - 1 - s = numStages - 1) := by omega
      have hlt : numStages - 1 - s < numStages - 1 := by omega
      rcases rin with _ | f <;>
        simp only [stdinActs, hne, hlt, if_true, if_false, ite_true, ite_false,
          lastDupFrom, List.foldl_cons, List.foldl_nil, stepDup, fdBinding_read,
          specStdinPlan, h0, specToCode] <;>
        exact congrArg Binding.pipeRead (by omega)
  · rw [lastDup_childActions_stdout]
    by_cases hN : s = numStages - 1
    · have hidx : numStages - 1 - s = 0 := by omega
      rw [hidx]
      rcases rout with _ | f
      · simp [stdoutActs, specStdoutPlan, hN, specToCode, lastDupFrom]
      · simp [stdoutActs, specStdoutPlan, hN, specToCode, lastDupFrom, stepDup,
          fdBinding]
    · have hpos : ¬(numStages - 1 - s = 0) := by omega
      have hgt : numStages - 1 - s > 0 := by omega
      rcases rout with _ | f <;>
        simp only [stdoutActs, hpos, hgt, if_true, if_false, ite_true, ite_false,
          lastDupFrom, List.foldl_cons, List.foldl_nil, stepDup, fdBinding_write,
          specStdoutPlan, hN, specToCode] <;>
        exact congrArg Binding.pipeWrite (by omega)

/-- Claim C2: for every pipeline (any fork outcomes), exactly `N-1` pipes
are created, and every pipe-creation event precedes every fork event in the
parent's event sequence — pipes are never created lazily after a fork. -/
theorem claim_c2 (pgms : List Pgm) (bg : Bool) (forkOk : Nat → Bool) :
    ((runPipeline pgms bg (fun _ => true) forkOk).countP isCreate
        = pgms.length - 1)
    ∧ allBefore isCreate isFork (runPipeline pgms bg (fun _ => true) forkOk) := by
  refine ⟨?_, creates_before_forks pgms bg forkOk⟩
  rw [runPipeline_true, List.countP_append, List.countP_append, List.countP_append]
  have h1 : ((List.range (pgms.length - 1)).map PEvent.createPipe).countP isCreate
      = pgms.length - 1 := by
    rw [List.countP_eq_length.2 (by
      intro a ha; rcases List.mem_map.1 ha with ⟨k, _, rfl⟩; rfl)]
    simp
  have h2 : (execute_pipeline pgms 0 forkOk).countP isCreate = 0 := by
    rw [List.countP_eq_zero.2]
    intro a ha
    rcases mem_execute_pipeline pgms forkOk 0 a ha with ⟨k, rfl⟩ | ⟨k, rfl⟩ <;> simp [isCreate]
  have h3 : ((List.range (2 * (pgms.length - 1))).map PEvent.closeParent).countP
      isCreate = 0 := by
    rw [List.countP_eq_zero.2]
    intro a ha
    rcases List.mem_map.1 ha with ⟨k, _, rfl⟩; simp [isCreate]
  have h4 : (if bg then [] else List.replicate pgms.length PEvent.waitAny).countP
      isCreate = 0 := by
    split_ifs
    · rfl
    · rw [List.countP_eq_zero.2]
      intro a ha
      rw [List.eq_of_mem_replicate ha]; simp [isCreate]
  rw [h1, h2, h3, h4]
  omega

/-- Claim C10: in a full run the successful forks appear in the parent's
event sequence with reversed indices `N-1, N-2, …, 0` — `execute_pipeline`
recurses to the tail of the reversed `Pgm` chain (the pipeline's first
stage) before performing any fork, so the first stage's fork happens first
and the chain head's (the last stage's) fork happens last — and every pipe
is allocated before the first fork. -/
theorem claim_c10 (pgms : List Pgm) (bg : Bool) :
    ((runPipeline pgms bg (fun _ => true) (fun _ => true)).filterMap forkIdx
        = (List.range pgms.length).reverse)
    ∧ allBefore isCreate isFork
        (runPipeline pgms bg (fun _ => true) (fun _ => true)) := by
  refine ⟨?_, creates_before_forks pgms bg (fun _ => true)⟩
  rw [runPipeline_true, List.filterMap_append, List.filterMap_append,
    List.filterMap_append, filterMap_forkIdx_execute_pipeline pgms 0]
  have h1 : ((List.range (pgms.length - 1)).map PEvent.createPipe).filterMap forkIdx
      = [] := by
    rw [List.filterMap_eq_nil_iff]
    intro a ha
    rcases List.mem_map.1 ha with ⟨k, _, rfl⟩; rfl
  have h3 : ((List.range (2 * (pgms.length - 1))).map PEvent.closeParent).filterMap
      forkIdx = [] := by
    rw [List.filterMap_eq_nil_iff]
    intro a ha
    rcases List.mem_map.1 ha with ⟨k, _, rfl⟩; rfl
  have h4 : (if bg then [] else List.replicate pgms.length PEvent.waitAny).filterMap
      forkIdx = [] := by
    split_ifs
    · rfl
    · rw [List.filterMap_eq_nil_iff]
      intro a ha
      rw [List.eq_of_mem_replicate ha]; rfl
  rw [h1, h3, h4]
  simp [List.range_eq_range']

/-- Witness for C1: the interior stage of a concrete three-stage pipeline
with both redirections present. -/
theorem claim_c1_witness :
    (lastDup (childActions false (some "i") (some "o") (3 - 1 - 1) 3 ["x"]
        (fun _ => true) (fun _ => true)) StdStream.stdin
      = specToCode 3 (specStdinPlan 1 (some "i")))
    ∧ (lastDup (childActions false (some "i") (some "o") (3 - 1 - 1) 3 ["x"]
        (fun _ => true) (fun _ => true)) StdStream.stdout
      = specToCode 3 (specStdoutPlan 3 1 (some "o")))
    ∧ (∀ pipeOk : Nat → Bool, createPipes pipeOk (1 - 1) = ([], false)) :=
  claim_c1 3 1 false (some "i") (some "o") ["x"] (by decide)

/-- Claim C4: no pipe descriptor leaks — every child closes every entry of
`pipefds` (both ends of all pipes, including the originals of descriptors
already duplicated onto stdin/stdout) before `execvp`, every close in the
child precedes the `execvp`, the parent closes every entry of `pipefds`,
and every parent-side close comes after all forks. -/
theorem claim_c4 (pgms : List Pgm) (bg : Bool) (forkOk : Nat → Bool)
    (rin rout : Option String) (cmdIdx : Nat) (argv : List String)
    (fd : Nat) (hfd : fd < 2 * (pgms.length - 1)) :
    (CAct.closeFd (Fd.pipeFd fd)
        ∈ childActions bg rin rout cmdIdx pgms.length argv
            (fun _ => true) (fun _ => true))
    ∧ allBefore isCloseAct isExecAct
        (childActions bg rin rout cmdIdx pgms.length argv
          (fun _ => true) (fun _ => true))
    ∧ (PEvent.closeParent fd ∈ runPipeline pgms bg (fun _ => true) forkOk)
    ∧ allBefore isFork isCloseParent (runPipeline pgms bg (fun _ => true) forkOk) := by
  refine ⟨?_, ?_, ?_, forks_before_parent_closes pgms bg forkOk⟩
  · rw [childActions_true]
    refine List.mem_append.2 (Or.inr (List.mem_append.2 (Or.inr
      (List.mem_append.2 (Or.inr (List.mem_append.2 (Or.inl ?_)))))))
    exact List.mem_map.2 ⟨fd, List.mem_range.2 hfd, rfl⟩
  · rw [childActions_true, ← List.append_assoc, ← List.append_assoc,
      ← List.append_assoc]
    apply allBefore_append
    · intro e he
      rcases List.mem_append.1 he with h | h
      · rcases List.mem_append.1 h with h | h
        · rcases List.mem_append.1 h with h | h
          · split_ifs at h
            · simp at h
            · rw [List.mem_singleton.1 h]; rfl
          · exact stdinActs_no_exec rin cmdIdx pgms.length (fun _ => true) e h
        · exact stdoutActs_no_exec rout cmdIdx (fun _ => true) e h
      · rcases List.mem_map.1 h with ⟨k, _, rfl⟩; rfl
    · intro e he
      rw [List.mem_singleton.1 he]; rfl
  · rw [runPipeline_true]
    refine List.mem_append.2 (Or.inr (List.mem_append.2 (Or.inr
      (List.mem_append.2 (Or.inl ?_)))))
    exact List.mem_map.2 ⟨fd, List.mem_range.2 hfd, rfl⟩

/-- Witness for C4: a concrete two-stage foreground pipeline, descriptor
`pipefds[1]`, child at reversed index 0. -/
theorem claim_c4_witness :
    (CAct.closeFd (Fd.pipeFd 1)
        ∈ childActions false none none 0 ([⟨["wc"]⟩, ⟨["cat"]⟩] : List Pgm).length ["wc"]
            (fun _ => true) (fun _ => true))
    ∧ allBefore isCloseAct isExecAct
        (childActions false none none 0 ([⟨["wc"]⟩, ⟨["cat"]⟩] : List Pgm).length ["wc"]
          (fun _ => true) (fun _ => true))
    ∧ (PEvent.closeParent 1
        ∈ runPipeline [⟨["wc"]⟩, ⟨["cat"]⟩] false (fun _ => true) (fun _ => true))
    ∧ allBefore isFork isCloseParent
        (runPipeline [⟨["wc"]⟩, ⟨["cat"]⟩] false (fun _ => true) (fun _ => true)) :=
  claim_c4 [⟨["wc"]⟩, ⟨["cat"]⟩] false (fun _ => true) none none 0 ["wc"] 1 (by decide)

/-- Claim C3 (code bug): the foreground wait is not filtered by the
pipeline's own process identities.  `execute_cmd` performs `N` blind
`wait(NULL)` calls (line 181); for a concrete foreground single-stage
pipeline whose own child is pid 7, with an unrelated background child 99
having terminated first, the single wait consumes 99's termination — an
identity the pipeline does not own — and the supervisor returns to the
prompt with the pipeline's own child 7 still unreaped. -/
theorem claim_c3_bug :
    ((execute_cmd ⟨[⟨["sleep", "60"]⟩], none, none, false⟩
        (fun _ => true) (fun _ => true) (fun _ => true)).2.countP isWait = 1)
    ∧ (blindReap ((execute_cmd ⟨[⟨["sleep", "60"]⟩], none, none, false⟩
        (fun _ => true) (fun _ => true) (fun _ => true)).2.countP isWait)
        [99, 7] = [99])
    ∧ (99 ∉ ([7] : List Nat))
    ∧ (7 ∉ blindReap 1 [99, 7]) := by decide

/-- Counterexample to C5 as stated: for the concrete pipeline
`cat < nofile | wc` whose input-redirection file cannot be opened, the
affected (first) stage is still forked — the `open` is attempted only
inside the child, after `fork` (the parent's event sequence does not depend
on the open outcome at all) — and the sibling stage still reaches `execvp`,
so the stage is not "aborted before its process is spawned" and the
pipeline does run. -/
theorem claim_c5_counterexample :
    (PEvent.fork 1 ∈ (execute_cmd ⟨[⟨["wc"]⟩, ⟨["cat"]⟩], some "nofile", none, false⟩
        (fun _ => true) (fun _ => true) (fun _ => true)).2)
    ∧ (CAct.execvp ["wc"] ∈ childActions false (some "nofile") none 0 2 ["wc"]
        (fun _ => false) (fun _ => true)) := by decide

/-- Claim C5 as amended: when a redirection target cannot be opened —
the input file at the pipeline's first stage (reversed index `N-1`) or the
output file at its last stage (reversed index `0`) — the failure is
reported (`perror`, naming the direction) and is fatal only inside the
affected stage's child, which has already been forked: that child exits
with status 1 before any `execvp`.  Sibling stages whose own redirection
opens do not fail still run — their children reach `execvp`, and the
supervisor still forks every stage whose fork primitive succeeds — and the
supervisor itself does not crash: its event sequence never contains a
shell exit. -/
theorem claim_c5_amended (numStages : Nat) (bg : Bool)
    (rin rout : Option String) (argv : List String) (openR openW : String → Bool) :
    (∀ f, rin = some f → openR f = false →
      (CAct.openRead f
          ∈ childActions bg rin rout (numStages - 1) numStages argv openR openW)
      ∧ (CAct.exitChild 1
          ∈ childActions bg rin rout (numStages - 1) numStages argv openR openW)
      ∧ (∀ a ∈ childActions bg rin rout (numStages - 1) numStages argv openR openW,
          isExecAct a = false))
    ∧ (∀ g, rout = some g → openW g = false →
        (stdinActs rin 0 numStages openR).2 = false →
      (CAct.openWrite g ∈ childActions bg rin rout 0 numStages argv openR openW)
      ∧ (CAct.exitChild 1 ∈ childActions bg rin rout 0 numStages argv openR openW)
      ∧ (∀ a ∈ childActions bg rin rout 0 numStages argv openR openW,
          isExecAct a = false))
    ∧ (∀ j, (stdinActs rin j numStages openR).2 = false →
        (stdoutActs rout j openW).2 = false →
        CAct.execvp argv ∈ childActions bg rin rout j numStages argv openR openW)
    ∧ (∀ pgms : List Pgm, ∀ forkOk : Nat → Bool,
        (∀ e ∈ runPipeline pgms bg (fun _ => true) forkOk, isShellExit e = false)
        ∧ (∀ j, j < pgms.length → forkOk j = true →
            PEvent.fork j ∈ runPipeline pgms bg (fun _ => true) forkOk)) := by
  refine ⟨?_, ?_, ?_, ?_⟩
  · intro f hrin hf
    subst hrin
    have hacts : childActions bg (some f) rout (numStages - 1) numStages argv openR openW
        = (if bg then [] else [CAct.sigDfl]) ++ [CAct.openRead f, CAct.exitChild 1] := by
      simp [childActions, stdinActs, hf]
    refine ⟨?_, ?_, ?_⟩
    · rw [hacts]; simp
    · rw [hacts]; simp
    · rw [hacts]
      intro a ha
      rcases List.mem_append.1 ha with h | h
      · split_ifs at h
        · simp at h
        · rw [List.mem_singleton.1 h]; rfl
      · simp only [List.mem_cons, List.mem_singleton, List.not_mem_nil, or_false] at h
        rcases h with rfl | rfl <;> rfl
  · intro g hrout hg hins
    subst hrout
    have houts : stdoutActs (some g) 0 openW
        = ([CAct.openWrite g, CAct.exitChild 1], true) := by
      simp [stdoutActs, hg]
    have hacts : childActions bg rin (some g) 0 numStages argv openR openW
        = (if bg then [] else [CAct.sigDfl]) ++ (stdinActs rin 0 numStages openR).1
          ++ [CAct.openWrite g, CAct.exitChild 1] := by
      simp [childActions, hins, houts]
    refine ⟨?_, ?_, ?_⟩
    · rw [hacts]; simp
    · rw [hacts]; simp
    · rw [hacts]
      intro a ha
      rcases List.mem_append.1 ha with h | h
      · rcases List.mem_append.1 h with h | h
        · split_ifs at h
          · simp at h
          · rw [List.mem_singleton.1 h]; rfl
        · exact stdinActs_no_exec rin 0 numStages openR a h
      · simp only [List.mem_cons, List.mem_singleton, List.not_mem_nil, or_false] at h
        rcases h with rfl | rfl <;> rfl
  · intro j hins houts
    simp only [childActions, hins, houts, Bool.false_eq_true, if_false]
    simp
  · intro pgms forkOk
    refine ⟨runPipeline_no_shellExit pgms bg forkOk, ?_⟩
    intro j hj hok
    have hbase := fork_mem_execute_pipeline pgms 0 j forkOk hj
    rw [Nat.zero_add] at hbase
    rw [runPipeline_true]
    exact List.mem_append.2 (Or.inr (List.mem_append.2 (Or.inl (hbase.1 hok))))

/-- Witness for C5 (amended) at a concrete three-stage pipeline
`cat < in | grep | wc > out` whose input and output files both fail to
open: the first stage's child dies on the input open, the last stage's
child dies on the output open, the interior sibling still reaches
`execvp`, and the supervisor still forks every stage and never exits. -/
theorem claim_c5_amended_witness :
    (CAct.openRead "in" ∈ childActions false (some "in") (some "out") (3 - 1) 3 ["cat"]
        (fun _ => false) (fun _ => false))
    ∧ (CAct.openWrite "out" ∈ childActions false (some "in") (some "out") 0 3 ["cat"]
        (fun _ => false) (fun _ => false))
    ∧ (CAct.execvp ["cat"] ∈ childActions false (some "in") (some "out") 1 3 ["cat"]
        (fun _ => false) (fun _ => false))
    ∧ (∀ e ∈ runPipeline [⟨["wc"]⟩, ⟨["grep"]⟩, ⟨["cat"]⟩] false
          (fun _ => true) (fun _ => true), isShellExit e = false)
    ∧ (PEvent.fork 2 ∈ runPipeline [⟨["wc"]⟩, ⟨["grep"]⟩, ⟨["cat"]⟩] false
          (fun _ => true) (fun _ => true)) := by
  have h := claim_c5_amended 3 false (some "in") (some "out") ["cat"]
    (fun _ => false) (fun _ => false)
  exact ⟨(h.1 "in" rfl rfl).1,
         (h.2.1 "out" rfl rfl rfl).1,
         h.2.2.1 1 rfl rfl,
         fun e he => (h.2.2.2 [⟨["wc"]⟩, ⟨["grep"]⟩, ⟨["cat"]⟩] (fun _ => true)).1 e he,
         (h.2.2.2 [⟨["wc"]⟩, ⟨["grep"]⟩, ⟨["cat"]⟩] (fun _ => true)).2 2 (by decide) rfl⟩

/-- The SIGINT-reset action appears in a child's action sequence exactly
when the pipeline is foreground (any open outcomes). -/
theorem sigDfl_mem_childActions (bg : Bool) (rin rout : Option String) (i n : Nat)
    (argv : List String) (oR oW : String → Bool) :
    (CAct.sigDfl ∈ childActions bg rin rout i n argv oR oW) ↔ bg = false := by
  unfold childActions
  cases bg
  · simp only [Bool.false_eq_true, if_false]
    split_ifs <;> simp
  · simp only [eq_self_iff_true, if_true, List.nil_append, Bool.true_eq_false,
      iff_false]
    intro hmem
    split_ifs at hmem
    · have := stdinActs_no_sig rin i n oR _ hmem
      simp [isSigAct] at this
    · rcases List.mem_append.1 hmem with h | h
      · have := stdinActs_no_sig rin i n oR _ h
        simp [isSigAct] at this
      · have := stdoutActs_no_sig rout i oW _ h
        simp [isSigAct] at this
    · rcases List.mem_append.1 hmem with h | h
      · rcases List.mem_append.1 h with h | h
        · rcases List.mem_append.1 h with h | h
          · have := stdinActs_no_sig rin i n oR _ h
            simp [isSigAct] at this
          · have := stdoutActs_no_sig rout i oW _ h
            simp [isSigAct] at this
        · rcases List.mem_map.1 h with ⟨k, _, hk⟩
          simp at hk
      · simp at h

/-- Claim C6: the shell sets SIGINT to ignore at startup (line 54) and
never changes it in the parent, so SIGINT does not terminate the shell
while it reads input or waits on a foreground pipeline; every child of a
foreground pipeline resets SIGINT to the default disposition before
`execvp` (lines 207-210), so the interrupt reaches it; and every child of a
background pipeline performs no reset and keeps the inherited ignore
disposition, so it survives SIGINT delivered to the shell's process
group. -/
theorem claim_c6 (bg : Bool) (rin rout : Option String) (i n : Nat)
    (argv : List String) (oR oW : String → Bool) :
    (killedBySigint shellSigint = false)
    ∧ (childSigint false = Disposition.dfl)
    ∧ (childSigint true = Disposition.ign)
    ∧ (killedBySigint (childSigint true) = false)
    ∧ ((CAct.sigDfl ∈ childActions bg rin rout i n argv oR oW) ↔ bg = false) :=
  ⟨rfl, rfl, rfl, rfl, sigDfl_mem_childActions bg rin rout i n argv oR oW⟩

/-- Counterexample to C7 as stated: for the concrete pipeline `cat | wc`
where the fork of the first stage (reversed index 1) fails, the remaining
not-yet-spawned stage (reversed index 0) is still forked — the recursive
caller discards `execute_pipeline`'s `-1` return value (line 194), so
nothing is aborted. -/
theorem claim_c7_counterexample :
    (PEvent.forkFailLog 1 ∈ runPipeline [⟨["wc"]⟩, ⟨["cat"]⟩] false
        (fun _ => true) (fun i => i == 0))
    ∧ (PEvent.fork 0 ∈ runPipeline [⟨["wc"]⟩, ⟨["cat"]⟩] false
        (fun _ => true) (fun i => i == 0)) := by decide

/-- Claim C7 as amended: when `fork` fails at some stage, the failure is
logged (`perror("Fork failed")`) and the shell process continues running
(its event sequence never contains a shell exit) — but spawning of the
remaining stages is not aborted: every stage whose own fork succeeds is
still forked, because the recursive caller discards the error return. -/
theorem claim_c7_amended (pgms : List Pgm) (bg : Bool) (forkOk : Nat → Bool)
    (j : Nat) (hj : j < pgms.length) :
    (forkOk j = false →
        PEvent.forkFailLog j ∈ runPipeline pgms bg (fun _ => true) forkOk)
    ∧ (forkOk j = true →
        PEvent.fork j ∈ runPipeline pgms bg (fun _ => true) forkOk)
    ∧ (∀ e ∈ runPipeline pgms bg (fun _ => true) forkOk, isShellExit e = false) := by
  have hbase := fork_mem_execute_pipeline pgms 0 j forkOk hj
  rw [Nat.zero_add] at hbase
  refine ⟨?_, ?_, runPipeline_no_shellExit pgms bg forkOk⟩
  · intro h
    rw [runPipeline_true]
    exact List.mem_append.2 (Or.inr (List.mem_append.2 (Or.inl (hbase.2 h))))
  · intro h
    rw [runPipeline_true]
    exact List.mem_append.2 (Or.inr (List.mem_append.2 (Or.inl (hbase.1 h))))

/-- Witness for C7 (amended): the concrete pipeline `cat | wc` with the
first stage's fork failing. -/
theorem claim_c7_amended_witness :
    (((fun i => i == 0) : Nat → Bool) 1 = false →
        PEvent.forkFailLog 1 ∈ runPipeline [⟨["wc"]⟩, ⟨["cat"]⟩] false
          (fun _ => true) (fun i => i == 0))
    ∧ (((fun i => i == 0) : Nat → Bool) 1 = true →
        PEvent.fork 1 ∈ runPipeline [⟨["wc"]⟩, ⟨["cat"]⟩] false
          (fun _ => true) (fun i => i == 0))
    ∧ (∀ e ∈ runPipeline [⟨["wc"]⟩, ⟨["cat"]⟩] false (fun _ => true) (fun i => i == 0),
        isShellExit e = false) :=
  claim_c7_amended [⟨["wc"]⟩, ⟨["cat"]⟩] false (fun i => i == 0) 1 (by decide)

/-- Counterexample to C8 as stated: `cd` invoked with zero path arguments
does not change to the user's home directory — it prints
"cd : missing argument" and performs no `chdir` at all (lines 109-112 have
no home-directory lookup). -/
theorem claim_c8_counterexample :
    ((check_built_ins ["cd"] (fun _ => true)).2 = [BAct.missingArgCd])
    ∧ (mentionsChdir (check_built_ins ["cd"] (fun _ => true)).2 = false) := by decide

/-- Claim C8 as amended: `cd` with zero path arguments reports a
missing-argument error and performs no directory change; with exactly one
argument (the `chdir` succeeding) it changes to that path. In both cases
the built-in is handled inside the shell (return value `0`). -/
theorem claim_c8_amended (p : String) (chdirOk : String → Bool)
    (hp : chdirOk p = true) :
    (check_built_ins ["cd"] chdirOk = (0, [BAct.missingArgCd]))
    ∧ (check_built_ins ["cd", p] chdirOk = (0, [BAct.chdirTo p])) := by
  constructor
  · rfl
  · simp [check_built_ins, hp]

/-- Witness for C8 (amended) at the concrete path "/tmp". -/
theorem claim_c8_amended_witness :
    (check_built_ins ["cd"] (fun _ => true) = (0, [BAct.missingArgCd]))
    ∧ (check_built_ins ["cd", "/tmp"] (fun _ => true) = (0, [BAct.chdirTo "/tmp"])) :=
  claim_c8_amended "/tmp" (fun _ => true) rfl

/-- Claim C9 (code bug): a built-in invoked with wrong arity reports the
usage error and changes no state (no `chdir`, no shell exit) — but a
process IS spawned for the command: `check_built_ins` returns `-1`, and
`execute_cmd`'s `!= 0` test (line 149) treats that exactly like "not a
built-in", so the shell forks a child for `exit foo` (and for `cd a b`)
that will attempt `execvp` of the built-in's name. -/
theorem claim_c9_bug :
    ((execute_cmd ⟨[⟨["exit", "foo"]⟩], none, none, false⟩
        (fun _ => true) (fun _ => true) (fun _ => true)).1 = [BAct.usageErrExit])
    ∧ (PEvent.fork 0 ∈ (execute_cmd ⟨[⟨["exit", "foo"]⟩], none, none, false⟩
        (fun _ => true) (fun _ => true) (fun _ => true)).2)
    ∧ ((execute_cmd ⟨[⟨["cd", "a", "b"]⟩], none, none, false⟩
        (fun _ => true) (fun _ => true) (fun _ => true)).1 = [BAct.usageErrCd])
    ∧ (PEvent.fork 0 ∈ (execute_cmd ⟨[⟨["cd", "a", "b"]⟩], none, none, false⟩
        (fun _ => true) (fun _ => true) (fun _ => true)).2)
    ∧ (mentionsChdir (execute_cmd ⟨[⟨["cd", "a", "b"]⟩], none, none, false⟩
        (fun _ => true) (fun _ => true) (fun _ => true)).1 = false)
    ∧ (∀ e ∈ (execute_cmd ⟨[⟨["exit", "foo"]⟩], none, none, false⟩
        (fun _ => true) (fun _ => true) (fun _ => true)).2,
          isShellExit e = false) := by decide

end Lsh
